import Mathlib

/-!
Shallow embedding of src/virtual_km_switch/switch.py.

The module defines two classes:
* VirtualInputGroup: a virtual keyboard/mouse sink for one target, with
  held-key bookkeeping (active_keys) and mouse-motion coalescing.
* VirtualKMSwitch: the router, which classifies incoming events
  (noswitch toggle, switch hotkeys, hardware hotkey, callbacks) and routes
  ordinary events to the active sink (route_event).

Device writes (uinput write/syn calls, grab/ungrab, LED updates, callback
invocations) are modelled as an emitted trace of events; each Python method
becomes a function from state to state paired with the trace it emits.
Python sets become Finset Nat, dicts (insertion ordered) become association
lists, and None-able fields become Option.
-/

namespace VKM

/-- Linux input event type constants, from evdev ecodes. -/
def EV_KEY : Nat := 1

/-- Relative axis event type constant. -/
def EV_REL : Nat := 2

/-- Relative X axis code. -/
def REL_X : Nat := 0

/-- Relative Y axis code. -/
def REL_Y : Nat := 1

/-- Horizontal wheel axis code. -/
def REL_HWHEEL : Nat := 6

/-- Wheel axis code. -/
def REL_WHEEL : Nat := 8

/-- Raw input event as read from a hardware device: type, code, value. -/
structure InputEvent where
  etype : Nat
  code : Nat
  value : Int
deriving DecidableEq

/-- Observable effect emitted by one VirtualInputGroup: uinput writes and
syn flushes on its virtual keyboard or virtual mouse. -/
inductive SinkEv where
  | kbdWrite (etype code : Nat) (value : Int)
  | kbdSyn
  | mouseWrite (etype code : Nat) (value : Int)
  | mouseSyn
deriving DecidableEq

/-- State of one VirtualInputGroup: the configured notify key, the set of
currently held keys/buttons (active_keys), and the two coalescing
accumulators for relative mouse motion. -/
structure VirtGroup where
  notify_key : Option Nat
  active_keys : Finset Nat
  mouse_move_x : Int
  mouse_move_y : Int
deriving DecidableEq

/-- Freshly constructed VirtualInputGroup: empty active_keys, zero motion
accumulators. -/
def mkVirtGroup (nk : Option Nat) : VirtGroup :=
  { notify_key := nk, active_keys := ∅, mouse_move_x := 0, mouse_move_y := 0 }

/-- VirtualInputGroup.write_key: update active_keys (add on value 1, erase
on value 0, untouched otherwise; a redundant remove is swallowed), then
write the key event and syn. -/
def write_key (g : VirtGroup) (key : Nat) (value : Int) : VirtGroup × List SinkEv :=
  let g :=
    if value = 1 then { g with active_keys := insert key g.active_keys }
    else if value = 0 then { g with active_keys := g.active_keys.erase key }
    else g
  (g, [SinkEv.kbdWrite EV_KEY key value, SinkEv.kbdSyn])

/-- VirtualInputGroup.press_and_release_key: write a down then an up with a
syn after each; note that this method does not touch active_keys. -/
def press_and_release_key (g : VirtGroup) (key : Nat) : VirtGroup × List SinkEv :=
  (g, [SinkEv.kbdWrite EV_KEY key 1, SinkEv.kbdSyn,
       SinkEv.kbdWrite EV_KEY key 0, SinkEv.kbdSyn])

/-- VirtualInputGroup.queue_mouse_move: accumulate a relative delta into the
matching axis accumulator; nothing is emitted. -/
def queue_mouse_move (g : VirtGroup) (code : Nat) (value : Int) : VirtGroup × List SinkEv :=
  if code = REL_X then ({ g with mouse_move_x := g.mouse_move_x + value }, [])
  else if code = REL_Y then ({ g with mouse_move_y := g.mouse_move_y + value }, [])
  else (g, [])

/-- VirtualInputGroup.commit_mouse: write one combined REL_X event if the X
accumulator is nonzero, one combined REL_Y event if the Y accumulator is
nonzero, then a single syn; the accumulators are reset only when a syn was
emitted. -/
def commit_mouse (g : VirtGroup) : VirtGroup × List SinkEv :=
  if g.mouse_move_x ≠ 0 ∨ g.mouse_move_y ≠ 0 then
    ({ g with mouse_move_x := 0, mouse_move_y := 0 },
      (if g.mouse_move_x ≠ 0 then [SinkEv.mouseWrite EV_REL REL_X g.mouse_move_x] else []) ++
      (if g.mouse_move_y ≠ 0 then [SinkEv.mouseWrite EV_REL REL_Y g.mouse_move_y] else []) ++
      [SinkEv.mouseSyn])
  else (g, [])

/-- VirtualInputGroup.write_mouse_button: same active_keys bookkeeping as
write_key, but the event goes to the virtual mouse device. -/
def write_mouse_button (g : VirtGroup) (button : Nat) (value : Int) : VirtGroup × List SinkEv :=
  let g :=
    if value = 1 then { g with active_keys := insert button g.active_keys }
    else if value = 0 then { g with active_keys := g.active_keys.erase button }
    else g
  (g, [SinkEv.mouseWrite EV_KEY button value, SinkEv.mouseSyn])

/-- VirtualInputGroup.scroll_mouse: write an uncoalesced scroll event and syn. -/
def scroll_mouse (g : VirtGroup) (code : Nat) (value : Int) : VirtGroup × List SinkEv :=
  (g, [SinkEv.mouseWrite EV_REL code value, SinkEv.mouseSyn])

/-- Sink-level operation alphabet, used to reason about arbitrary sequences
of VirtualInputGroup method calls. -/
inductive SinkOp where
  | opWriteKey (key : Nat) (value : Int)
  | opPressAndRelease (key : Nat)
  | opQueueMouseMove (code : Nat) (value : Int)
  | opCommitMouse
  | opWriteMouseButton (button : Nat) (value : Int)
  | opScrollMouse (code : Nat) (value : Int)
deriving DecidableEq

/-- Run one sink operation. -/
def runOp (g : VirtGroup) : SinkOp → VirtGroup × List SinkEv
  | SinkOp.opWriteKey k v => write_key g k v
  | SinkOp.opPressAndRelease k => press_and_release_key g k
  | SinkOp.opQueueMouseMove c v => queue_mouse_move g c v
  | SinkOp.opCommitMouse => commit_mouse g
  | SinkOp.opWriteMouseButton b v => write_mouse_button g b v
  | SinkOp.opScrollMouse c v => scroll_mouse g c v

/-- Run a sequence of sink operations, concatenating the emitted traces. -/
def runOps (g : VirtGroup) : List SinkOp → VirtGroup × List SinkEv
  | [] => (g, [])
  | op :: rest =>
    let r1 := runOp g op
    let r2 := runOps r1.1 rest
    (r2.1, r1.2 ++ r2.2)

/-- Fold step computing, from an emitted trace, the set of codes whose last
EV_KEY write was a down (value 1) not yet followed by an up (value 0);
writes with other values and non-key events leave the set unchanged. -/
def heldStep (acc : Finset Nat) : SinkEv → Finset Nat
  | SinkEv.kbdWrite t c v =>
    if t = EV_KEY then
      (if v = 1 then insert c acc else if v = 0 then acc.erase c else acc)
    else acc
  | SinkEv.mouseWrite t c v =>
    if t = EV_KEY then
      (if v = 1 then insert c acc else if v = 0 then acc.erase c else acc)
    else acc
  | _ => acc

/-- Set of codes held according to a trace of emitted sink events, per the
last-write-was-down reading. -/
def heldFromTrace (tr : List SinkEv) : Finset Nat :=
  tr.foldl heldStep ∅

/-- Observable effect at the router level: a sink event attributed to the
target it was written to, a grab or ungrab of the hardware devices, a
noswitch LED update, or the invocation of a registered callback with the
raw event. -/
inductive SwitchEv where
  | sink (hotkey : Nat) (e : SinkEv)
  | grab
  | ungrab
  | setLed (value : Bool)
  | callbackRun (handler : Nat) (etype code : Nat) (value : Int)
deriving DecidableEq

/-- State of VirtualKMSwitch. virt_group_by_hotkey is the insertion-ordered
dict from hotkey to VirtualInputGroup; callbacks_by_key maps a keycode to
the registration-ordered list of its callbacks, identified abstractly by
numbers (callback bodies are external configuration); hw_active_keys is the
set of keys the OS reports held on the physical keyboard (read in real time
by the noswitch modifier test); grabbed records whether the hardware
devices are grabbed. -/
structure Switch where
  virt_group_by_hotkey : List (Nat × VirtGroup)
  active_virt_group : Option Nat
  hw_hotkey : Option Nat
  callbacks_by_key : List (Nat × List Nat)
  noswitch_modifier : Option Nat
  noswitch_toggle : Option Nat
  noswitch : Bool
  grabbed : Bool
  hw_active_keys : Finset Nat
deriving DecidableEq

/-- Association-list lookup mirroring a Python dict lookup (first match). -/
def alookup {β : Type} (code : Nat) : List (Nat × β) → Option β
  | [] => none
  | (k, b) :: rest => if code = k then some b else alookup code rest

/-- Replace the value stored under a key in an association list. -/
def aupdate {β : Type} (code : Nat) (b : β) : List (Nat × β) → List (Nat × β)
  | [] => []
  | (k, v) :: rest =>
    if code = k then (k, b) :: rest else (k, v) :: aupdate code b rest

/-- VirtualKMSwitch.set_active: a negative hotkey ungrabs all hardware
devices (IOError swallowed) and clears the active group; a non-negative
hotkey grabs all hardware devices if no group was active, then records the
hotkey as active. -/
def set_active (s : Switch) (hotkey : Int) : Switch × List SwitchEv :=
  if hotkey < 0 then
    ({ s with grabbed := false, active_virt_group := none }, [SwitchEv.ungrab])
  else if s.active_virt_group = none then
    ({ s with grabbed := true, active_virt_group := some hotkey.toNat }, [SwitchEv.grab])
  else
    ({ s with active_virt_group := some hotkey.toNat }, [])

/-- VirtualKMSwitch._is_noswitch: the noswitch flag, or the noswitch
modifier being physically held right now on the hardware keyboard. -/
def is_noswitch (s : Switch) : Bool :=
  s.noswitch ||
    (match s.noswitch_modifier with
     | some m => decide (m ∈ s.hw_active_keys)
     | none => false)

/-- Predicate from route_event._is_mouse_btn: BTN_LEFT (272) through
BTN_EXTRA (276). -/
def is_mouse_btn (keycode : Nat) : Bool :=
  272 ≤ keycode && keycode ≤ 276

/-- Union of the active_keys of every group other than the active one,
as computed at the top of route_event. -/
def unreleased_keys (s : Switch) : Finset Nat :=
  s.virt_group_by_hotkey.foldl
    (fun acc p => if some p.1 = s.active_virt_group then acc else acc ∪ p.2.active_keys) ∅

/-- Per-group key routing loop of route_event: a group receives the key
event when it is the active group and the code is not held unreleased by
another group, or when the code is in its own active_keys and the event is
an up; mouse buttons go to write_mouse_button, other codes to write_key. -/
def route_key_to_groups (active : Option Nat) (unrel : Finset Nat)
    (code : Nat) (value : Int) :
    List (Nat × VirtGroup) → List (Nat × VirtGroup) × List SwitchEv
  | [] => ([], [])
  | (h, g) :: rest =>
    let r1 :=
      if (some h = active ∧ code ∉ unrel) ∨ (code ∈ g.active_keys ∧ value = 0) then
        let w := if is_mouse_btn code then write_mouse_button g code value
                 else write_key g code value
        (w.1, w.2.map (SwitchEv.sink h))
      else (g, ([] : List SwitchEv))
    let r2 := route_key_to_groups active unrel code value rest
    ((h, r1.1) :: r2.1, r1.2 ++ r2.2)

/-- VirtualKMSwitch.route_event: drop everything while no group is active;
route key events through the per-group loop above; route relative events to
the active group only, coalescing REL_X/REL_Y and writing wheel codes as
immediate scrolls. In Python a relative event with an active hotkey absent
from the dict would raise KeyError; that state is unreachable through the
public interface and is modelled as a no-op branch. -/
def route_event (s : Switch) (e : InputEvent) : Switch × List SwitchEv :=
  if s.active_virt_group = none then (s, [])
  else if e.etype = EV_KEY then
    let r := route_key_to_groups s.active_virt_group (unreleased_keys s) e.code e.value
        s.virt_group_by_hotkey
    ({ s with virt_group_by_hotkey := r.1 }, r.2)
  else if e.etype = EV_REL then
    match s.active_virt_group with
    | none => (s, [])
    | some a =>
      match alookup a s.virt_group_by_hotkey with
      | none => (s, [])
      | some g =>
        if e.code = REL_X ∨ e.code = REL_Y then
          let r := queue_mouse_move g e.code e.value
          ({ s with virt_group_by_hotkey := aupdate a r.1 s.virt_group_by_hotkey },
           r.2.map (SwitchEv.sink a))
        else if e.code = REL_WHEEL ∨ e.code = REL_HWHEEL then
          let r := scroll_mouse g e.code e.value
          ({ s with virt_group_by_hotkey := aupdate a r.1 s.virt_group_by_hotkey },
           r.2.map (SwitchEv.sink a))
        else (s, [])
  else (s, [])

/-- Loop in _handle_event that, after a switch, presses and releases the
notify key of the newly activated group on every group in dict order. -/
def press_notify_all (nk : Nat) :
    List (Nat × VirtGroup) → List (Nat × VirtGroup) × List SwitchEv
  | [] => ([], [])
  | (h, g) :: rest =>
    let r1 := press_and_release_key g nk
    let r2 := press_notify_all nk rest
    ((h, r1.1) :: r2.1, r1.2.map (SwitchEv.sink h) ++ r2.2)

/-- Body of the switch-hotkey branch of _handle_event: activate the group
registered under the pressed code, then, if its notify key is truthy
(Python: not None and not 0), press and release that key on every sink. -/
def handle_switch (s : Switch) (code : Nat) : Switch × List SwitchEv :=
  let r := set_active s (code : Int)
  match (alookup code r.1.virt_group_by_hotkey).bind (fun g => g.notify_key) with
  | some nk =>
    if nk ≠ 0 then
      let r2 := press_notify_all nk r.1.virt_group_by_hotkey
      ({ r.1 with virt_group_by_hotkey := r2.1 }, r.2 ++ r2.2)
    else r
  | none => r

/-- Callback dispatch and final routing fallthrough of _handle_event: if
the raw code has registered callbacks and noswitch mode does not suppress
them (suppression: the code differs from the noswitch modifier while
_is_noswitch holds), invoke every callback in registration order and
consume the event; otherwise hand the event to route_event. -/
def handle_fallthrough (s : Switch) (e : InputEvent) : Switch × List SwitchEv :=
  match alookup e.code s.callbacks_by_key with
  | some handlers =>
    if some e.code ≠ s.noswitch_modifier ∧ is_noswitch s = true then
      route_event s e
    else
      (s, handlers.map (fun h => SwitchEv.callbackRun h e.etype e.code e.value))
  | none => route_event s e

/-- VirtualKMSwitch._handle_event: ignore event types other than EV_KEY and
EV_REL; for key events, first the noswitch toggle (consumed for every
value, flipping the flag and updating the LED on a down), then the
noswitch passthrough test (falls through to callbacks/routing), then
switch hotkeys (consumed, switching on a down), then the hardware hotkey
(consumed, releasing on an up); everything that falls through reaches the
callback dispatch and route_event. -/
def handle_event (s : Switch) (e : InputEvent) : Switch × List SwitchEv :=
  if ¬(e.etype = EV_KEY ∨ e.etype = EV_REL) then (s, [])
  else if e.etype = EV_KEY ∧ some e.code = s.noswitch_toggle then
    if e.value = 1 then
      ({ s with noswitch := !s.noswitch }, [SwitchEv.setLed (!s.noswitch)])
    else (s, [])
  else if e.etype = EV_KEY ∧ is_noswitch s = true then
    handle_fallthrough s e
  else if e.etype = EV_KEY ∧ (alookup e.code s.virt_group_by_hotkey).isSome then
    if e.value = 1 then handle_switch s e.code else (s, [])
  else if e.etype = EV_KEY ∧ some e.code = s.hw_hotkey then
    if e.value = 0 then set_active s (-1) else (s, [])
  else
    handle_fallthrough s e

/-- Freshly constructed VirtualKMSwitch: no groups, nothing active, no
hotkeys or callbacks configured, noswitch off, devices not grabbed. -/
def mkSwitch : Switch :=
  { virt_group_by_hotkey := []
    active_virt_group := none
    hw_hotkey := none
    callbacks_by_key := []
    noswitch_modifier := none
    noswitch_toggle := none
    noswitch := false
    grabbed := false
    hw_active_keys := ∅ }

/-- Grab state of the replacement device handle at the end of
_reconnect_device: the fresh handle starts ungrabbed and is grabbed
(best-effort) exactly when a virtual group is active. -/
def reconnect_grab_state (s : Switch) : Bool :=
  if s.active_virt_group.isSome then true else false

/-- Key or mouse-button write event as emitted by the routing loop for a
given code and value. -/
def key_write_ev (code : Nat) (value : Int) : SinkEv :=
  if is_mouse_btn code then SinkEv.mouseWrite EV_KEY code value
  else SinkEv.kbdWrite EV_KEY code value

/-- Queue a list of deltas on one relative axis one by one
(queue_mouse_move emits nothing, so only the resulting state matters). -/
def queue_deltas (axis : Nat) (g : VirtGroup) : List Int → VirtGroup
  | [] => g
  | d :: rest => queue_deltas axis (queue_mouse_move g axis d).1 rest

/-- Decidable test that an operation sequence never calls
press_and_release_key. -/
def noPressRelease (ops : List SinkOp) : Bool :=
  ops.all (fun op => match op with
    | SinkOp.opPressAndRelease _ => false
    | _ => true)

/-- Group that currently holds key 30, used as a concrete hand-off state. -/
def gHolds30 : VirtGroup :=
  { mkVirtGroup none with active_keys := {30} }

/-- Concrete two-target router: hotkeys 2 and 3, target 2 holds key 30,
target 3 is active. -/
def handoffSwitch : Switch :=
  { mkSwitch with
    virt_group_by_hotkey := [(2, gHolds30), (3, mkVirtGroup none)]
    active_virt_group := some 3
    grabbed := true }

/-- Router with two targets configured with hotkeys H1, H2 and notify keys
N1, N2, the second target active, as in the notify-key switch scenario. -/
def two_target_switch (H1 H2 N1 N2 : Nat) : Switch :=
  { mkSwitch with
    virt_group_by_hotkey := [(H1, mkVirtGroup (some N1)), (H2, mkVirtGroup (some N2))]
    active_virt_group := some H2
    grabbed := true }

/-- Concrete routed state with a configured hardware release hotkey 50 and
active target 5. -/
def hwReleaseSwitch : Switch :=
  { mkSwitch with
    virt_group_by_hotkey := [(5, mkVirtGroup none)]
    active_virt_group := some 5
    hw_hotkey := some 50
    grabbed := true }

/-- Concrete router in noswitch mode with a switch hotkey 2, a callback on
code 60, a toggle on code 59 and a modifier on code 56, target 2 active. -/
def passThroughSwitch : Switch :=
  { mkSwitch with
    virt_group_by_hotkey := [(2, mkVirtGroup none)]
    active_virt_group := some 2
    callbacks_by_key := [(60, [0])]
    noswitch_modifier := some 56
    noswitch_toggle := some 59
    noswitch := true
    grabbed := true }

/-- Concrete router with one callback registered for code 1 (KEY_ESC on
keyboards, REL_Y among relative axes), nothing suppressing callbacks. -/
def escCallbackSwitch : Switch :=
  { mkSwitch with
    virt_group_by_hotkey := [(2, mkVirtGroup none)]
    active_virt_group := some 2
    callbacks_by_key := [(1, [0])]
    grabbed := true }

end VKM

namespace VKM

section SinkTheorems

/-- Helper: queueing a list of REL_X deltas adds their sum to the X
accumulator and leaves the Y accumulator unchanged. -/
theorem queue_deltas_x_spec (g : VirtGroup) (ds : List Int) :
    (queue_deltas REL_X g ds).mouse_move_x = g.mouse_move_x + ds.sum ∧
    (queue_deltas REL_X g ds).mouse_move_y = g.mouse_move_y := by
  induction ds generalizing g with
  | nil => simp [queue_deltas]
  | cons d rest ih =>
    have hq : (queue_mouse_move g REL_X d).1 =
        { g with mouse_move_x := g.mouse_move_x + d } := by
      simp [queue_mouse_move]
    simp only [queue_deltas]
    rw [hq]
    obtain ⟨h1, h2⟩ := ih { g with mouse_move_x := g.mouse_move_x + d }
    refine ⟨?_, ?_⟩
    · rw [h1]; simp only [List.sum_cons]; ring
    · rw [h2]

/-- Helper: queueing a list of REL_Y deltas adds their sum to the Y
accumulator and leaves the X accumulator unchanged. -/
theorem queue_deltas_y_spec (g : VirtGroup) (ds : List Int) :
    (queue_deltas REL_Y g ds).mouse_move_y = g.mouse_move_y + ds.sum ∧
    (queue_deltas REL_Y g ds).mouse_move_x = g.mouse_move_x := by
  induction ds generalizing g with
  | nil => simp [queue_deltas]
  | cons d rest ih =>
    have hq : (queue_mouse_move g REL_Y d).1 =
        { g with mouse_move_y := g.mouse_move_y + d } := by
      simp [queue_mouse_move, REL_X, REL_Y]
    simp only [queue_deltas]
    rw [hq]
    obtain ⟨h1, h2⟩ := ih { g with mouse_move_y := g.mouse_move_y + d }
    refine ⟨?_, ?_⟩
    · rw [h1]; simp only [List.sum_cons]; ring
    · rw [h2]

/-- C3 (amended): for either relative axis (REL_X or REL_Y), starting from
a committed sink (both accumulators zero), queueing any list of deltas on
that axis and committing emits exactly one motion event on that axis
carrying the arithmetic sum followed by one flush when the sum is nonzero,
and nothing when the sum is zero; both accumulators are zero after the
commit, and a second commit with no intervening motion emits nothing. -/
theorem commit_mouse_coalesces (axis : Nat) (haxis : axis = REL_X ∨ axis = REL_Y)
    (g : VirtGroup) (hx : g.mouse_move_x = 0) (hy : g.mouse_move_y = 0)
    (ds : List Int) :
    ((commit_mouse (queue_deltas axis g ds)).2 =
      if ds.sum = 0 then []
      else [SinkEv.mouseWrite EV_REL axis ds.sum, SinkEv.mouseSyn])
    ∧ (commit_mouse (queue_deltas axis g ds)).1.mouse_move_x = 0
    ∧ (commit_mouse (queue_deltas axis g ds)).1.mouse_move_y = 0
    ∧ commit_mouse (commit_mouse (queue_deltas axis g ds)).1 =
        ((commit_mouse (queue_deltas axis g ds)).1, []) := by
  rcases haxis with h | h <;> subst h
  · obtain ⟨h1, h2⟩ := queue_deltas_x_spec g ds
    rw [hx, zero_add] at h1
    rw [hy] at h2
    by_cases hs : ds.sum = 0
    · have hcommit : commit_mouse (queue_deltas REL_X g ds) =
          (queue_deltas REL_X g ds, []) := by
        unfold commit_mouse
        rw [if_neg]
        simp [h1, h2, hs]
      rw [hcommit]
      refine ⟨by rw [if_pos hs], by simp [h1, hs], by simp [h2], ?_⟩
      unfold commit_mouse
      rw [if_neg]
      simp [h1, h2, hs]
    · have hcommit : commit_mouse (queue_deltas REL_X g ds) =
          ({ queue_deltas REL_X g ds with mouse_move_x := 0, mouse_move_y := 0 },
           [SinkEv.mouseWrite EV_REL REL_X ds.sum, SinkEv.mouseSyn]) := by
        unfold commit_mouse
        rw [if_pos]
        · simp [h1, h2, hs]
        · left; rw [h1]; exact hs
      rw [hcommit]
      refine ⟨by rw [if_neg hs], rfl, rfl, ?_⟩
      unfold commit_mouse
      simp
  · obtain ⟨h1, h2⟩ := queue_deltas_y_spec g ds
    rw [hy, zero_add] at h1
    rw [hx] at h2
    by_cases hs : ds.sum = 0
    · have hcommit : commit_mouse (queue_deltas REL_Y g ds) =
          (queue_deltas REL_Y g ds, []) := by
        unfold commit_mouse
        rw [if_neg]
        simp [h1, h2, hs]
      rw [hcommit]
      refine ⟨by rw [if_pos hs], by simp [h2], by simp [h1, hs], ?_⟩
      unfold commit_mouse
      rw [if_neg]
      simp [h1, h2, hs]
    · have hcommit : commit_mouse (queue_deltas REL_Y g ds) =
          ({ queue_deltas REL_Y g ds with mouse_move_x := 0, mouse_move_y := 0 },
           [SinkEv.mouseWrite EV_REL REL_Y ds.sum, SinkEv.mouseSyn]) := by
        unfold commit_mouse
        rw [if_pos]
        · simp [h1, h2, hs]
        · right; rw [h1]; exact hs
      rw [hcommit]
      refine ⟨by rw [if_neg hs], rfl, rfl, ?_⟩
      unfold commit_mouse
      simp

/-- Witness for commit_mouse_coalesces on the REL_Y axis at the fresh sink
and deltas 3, 4, -2 (sum 5). -/
theorem commit_mouse_coalesces_witness :
    ((commit_mouse (queue_deltas REL_Y (mkVirtGroup none) [3, 4, -2])).2 =
      if ([3, 4, -2] : List Int).sum = 0 then []
      else [SinkEv.mouseWrite EV_REL REL_Y (([3, 4, -2] : List Int).sum), SinkEv.mouseSyn])
    ∧ (commit_mouse (queue_deltas REL_Y (mkVirtGroup none) [3, 4, -2])).1.mouse_move_x = 0
    ∧ (commit_mouse (queue_deltas REL_Y (mkVirtGroup none) [3, 4, -2])).1.mouse_move_y = 0
    ∧ commit_mouse (commit_mouse (queue_deltas REL_Y (mkVirtGroup none) [3, 4, -2])).1 =
        ((commit_mouse (queue_deltas REL_Y (mkVirtGroup none) [3, 4, -2])).1, []) :=
  commit_mouse_coalesces REL_Y (Or.inr rfl) (mkVirtGroup none) rfl rfl [3, 4, -2]

/-- C3 counterexample: queueing the deltas 1 and -1 (a nonempty sequence
with sum 0) and committing emits no event at all, refuting the claim that
every commit after queued deltas emits exactly one motion event carrying
the arithmetic sum. -/
theorem commit_mouse_zero_sum_cex :
    (commit_mouse (queue_deltas REL_X (mkVirtGroup none) [1, -1])).2 = []
    ∧ ([1, -1] : List Int).sum = 0
    ∧ SinkEv.mouseWrite EV_REL REL_X (([1, -1] : List Int).sum) ∉
        (commit_mouse (queue_deltas REL_X (mkVirtGroup none) [1, -1])).2 := by
  decide

/-- C8 (amended): press_and_release_key emits exactly the events of
write_key down followed by write_key up, and when the key is not currently
in active_keys the final sink state also agrees; the two only differ when
the key is already held, because press_and_release_key skips the
active_keys bookkeeping. -/
theorem press_and_release_equiv (g : VirtGroup) (key : Nat)
    (h : key ∉ g.active_keys) :
    press_and_release_key g key =
      ((write_key (write_key g key 1).1 key 0).1,
       (write_key g key 1).2 ++ (write_key (write_key g key 1).1 key 0).2) := by
  unfold press_and_release_key write_key
  simp [Finset.erase_insert h]

/-- Witness for press_and_release_equiv at the fresh sink and key 7. -/
theorem press_and_release_equiv_witness :
    press_and_release_key (mkVirtGroup none) 7 =
      ((write_key (write_key (mkVirtGroup none) 7 1).1 7 0).1,
       (write_key (mkVirtGroup none) 7 1).2 ++
         (write_key (write_key (mkVirtGroup none) 7 1).1 7 0).2) :=
  press_and_release_equiv (mkVirtGroup none) 7 (by decide)

/-- C8 counterexample: on a sink already holding key 5, write_key down then
write_key up removes 5 from active_keys but press_and_release_key leaves it
held, so the two are not equivalent on every sink state. -/
theorem press_and_release_cex :
    (press_and_release_key ({ mkVirtGroup none with active_keys := {5} }) 5).1 ≠
      (write_key (write_key ({ mkVirtGroup none with active_keys := {5} }) 5 1).1 5 0).1 := by
  decide

/-- Helper: each sink operation other than press_and_release_key keeps
active_keys equal to the held-set fold of the events it emits. -/
theorem runOp_preserves_held (g : VirtGroup) (op : SinkOp)
    (hop : noPressRelease [op] = true) :
    (runOp g op).1.active_keys = (runOp g op).2.foldl heldStep g.active_keys := by
  cases op with
  | opWriteKey k v =>
    simp only [runOp, write_key, List.foldl, heldStep, EV_KEY, if_pos rfl]
    split_ifs <;> rfl
  | opPressAndRelease k => simp [noPressRelease] at hop
  | opQueueMouseMove c v =>
    simp only [runOp, queue_mouse_move]
    split_ifs <;> rfl
  | opCommitMouse =>
    simp only [runOp, commit_mouse]
    split_ifs with h1 h2 h3 <;>
      simp [heldStep, EV_REL, EV_KEY, List.foldl_append]
  | opWriteMouseButton b v =>
    simp only [runOp, write_mouse_button, List.foldl, heldStep, EV_KEY, if_pos rfl]
    split_ifs <;> rfl
  | opScrollMouse c v =>
    simp [runOp, scroll_mouse, heldStep, EV_REL, EV_KEY]

/-- Helper: over any press_and_release-free operation sequence, the final
active_keys equals the held-set fold of the whole emitted trace started
from the initial active_keys. -/
theorem runOps_preserves_held (ops : List SinkOp) (g : VirtGroup)
    (hops : noPressRelease ops = true) :
    (runOps g ops).1.active_keys = (runOps g ops).2.foldl heldStep g.active_keys := by
  induction ops generalizing g with
  | nil => simp [runOps]
  | cons op rest ih =>
    have hop : noPressRelease [op] = true := by
      simp only [noPressRelease, List.all_cons, Bool.and_eq_true] at hops ⊢
      exact ⟨hops.1, rfl⟩
    have hrest : noPressRelease rest = true := by
      simp only [noPressRelease, List.all_cons, Bool.and_eq_true] at hops
      exact hops.2
    simp only [runOps, List.foldl_append]
    rw [ih (runOp g op).1 hrest, runOp_preserves_held g op hop]

/-- C5 (amended): over any sequence of sink operations that never uses
press_and_release_key, starting from a fresh sink, active_keys equals
exactly the set of codes whose last key write in the emitted trace was a
down (value 1) not yet followed by an up (value 0); press_and_release_key
is excluded because it emits a down and an up without touching
active_keys. -/
theorem active_keys_tracks_trace (ops : List SinkOp)
    (hops : noPressRelease ops = true) :
    (runOps (mkVirtGroup none) ops).1.active_keys =
      heldFromTrace (runOps (mkVirtGroup none) ops).2 := by
  rw [heldFromTrace, runOps_preserves_held ops (mkVirtGroup none) hops]
  rfl

/-- Witness for active_keys_tracks_trace on a concrete sequence: key 5
down, key 6 down, key 5 up, a mouse button down, motion and a commit. -/
theorem active_keys_tracks_trace_witness :
    (runOps (mkVirtGroup none)
      [SinkOp.opWriteKey 5 1, SinkOp.opWriteKey 6 1, SinkOp.opWriteKey 5 0,
       SinkOp.opWriteMouseButton 272 1, SinkOp.opQueueMouseMove 0 4,
       SinkOp.opCommitMouse]).1.active_keys =
      heldFromTrace (runOps (mkVirtGroup none)
        [SinkOp.opWriteKey 5 1, SinkOp.opWriteKey 6 1, SinkOp.opWriteKey 5 0,
         SinkOp.opWriteMouseButton 272 1, SinkOp.opQueueMouseMove 0 4,
         SinkOp.opCommitMouse]).2 :=
  active_keys_tracks_trace _ (by decide)

/-- C5 counterexample: write key 5 down, then press_and_release_key 5; the
last write in the trace for code 5 is an up, yet active_keys still contains
5, because press_and_release_key skips the bookkeeping. -/
theorem active_keys_tracks_trace_cex :
    (runOps (mkVirtGroup none)
      [SinkOp.opWriteKey 5 1, SinkOp.opPressAndRelease 5]).1.active_keys ≠
      heldFromTrace (runOps (mkVirtGroup none)
        [SinkOp.opWriteKey 5 1, SinkOp.opPressAndRelease 5]).2 := by
  decide

end SinkTheorems

end VKM

namespace VKM

section RouterTheorems

/-- C10: while no virtual group is active, route_event returns the state
unchanged (no held-key or accumulator change) and writes nothing to any
sink. -/
theorem route_event_idle (s : Switch) (h : s.active_virt_group = none)
    (e : InputEvent) :
    route_event s e = (s, []) := by
  simp [route_event, h]

/-- Witness for route_event_idle on the fresh router and a key event. -/
theorem route_event_idle_witness :
    route_event mkSwitch ⟨EV_KEY, 5, 1⟩ = (mkSwitch, []) :=
  route_event_idle mkSwitch rfl ⟨EV_KEY, 5, 1⟩

/-- C6: the freshly constructed router is ungrabbed and idle; any
set_active call preserves the grabbed-iff-active invariant; and the
replacement handle installed by _reconnect_device is grabbed exactly when
a group is active (grab and ungrab being modelled as the best-effort
attempts the code makes, with IOError swallowed). -/
theorem grab_iff_active (s : Switch)
    (h : s.grabbed = s.active_virt_group.isSome) (hotkey : Int) :
    mkSwitch.grabbed = mkSwitch.active_virt_group.isSome
    ∧ (set_active s hotkey).1.grabbed = (set_active s hotkey).1.active_virt_group.isSome
    ∧ reconnect_grab_state s = s.active_virt_group.isSome := by
  refine ⟨rfl, ?_, ?_⟩
  · unfold set_active
    split_ifs with h1 h2
    · rfl
    · rfl
    · simp [h, Option.isSome_iff_ne_none, h2]
  · unfold reconnect_grab_state
    cases hact : s.active_virt_group <;> simp [hact]

/-- Witness for grab_iff_active: releasing from a grabbed two-target
state. -/
theorem grab_iff_active_witness :
    mkSwitch.grabbed = mkSwitch.active_virt_group.isSome
    ∧ (set_active handoffSwitch (-1)).1.grabbed =
        (set_active handoffSwitch (-1)).1.active_virt_group.isSome
    ∧ reconnect_grab_state handoffSwitch = handoffSwitch.active_virt_group.isSome :=
  grab_iff_active handoffSwitch (by decide) (-1)

/-- C9: the callback registry is keyed by numeric code only, so a
relative-motion event whose code has registered callbacks (with noswitch
not suppressing them) invokes every callback in registration order and is
not routed: the router state, including every sink, is unchanged. -/
theorem callbacks_ignore_event_kind (s : Switch) (code : Nat)
    (handlers : List Nat)
    (hcb : alookup code s.callbacks_by_key = some handlers)
    (hsup : ¬(some code ≠ s.noswitch_modifier ∧ is_noswitch s = true))
    (v : Int) :
    handle_event s ⟨EV_REL, code, v⟩ =
      (s, handlers.map (fun h => SwitchEv.callbackRun h EV_REL code v)) := by
  have hstep : handle_event s ⟨EV_REL, code, v⟩ =
      handle_fallthrough s ⟨EV_REL, code, v⟩ := rfl
  rw [hstep]
  simp only [handle_fallthrough, hcb]
  rw [if_neg hsup]

/-- Witness for callbacks_ignore_event_kind: a REL_Y motion (code 1)
triggers the callback registered for keycode 1 (KEY_ESC). -/
theorem callbacks_ignore_event_kind_witness :
    handle_event escCallbackSwitch ⟨EV_REL, 1, -5⟩ =
      (escCallbackSwitch,
       ([0] : List Nat).map (fun h => SwitchEv.callbackRun h EV_REL 1 (-5))) :=
  callbacks_ignore_event_kind escCallbackSwitch 1 [0] rfl (by decide) (-5)

/-- C7 (amended): with a hardware release hotkey configured that is neither
the toggle nor a switch hotkey, and noswitch inactive, an up-edge
(value 0) of that hotkey releases the grab on all sources and sets the
active group to none, while a down-edge (value 1) is consumed with no state
change: the code releases on the up-edge, not on the down-edge the claim
states. -/
theorem hw_hotkey_release (s : Switch) (hw a : Nat)
    (hhw : s.hw_hotkey = some hw)
    (ha : s.active_virt_group = some a)
    (hns : is_noswitch s = false)
    (htog : s.noswitch_toggle ≠ some hw)
    (hgrp : alookup hw s.virt_group_by_hotkey = none) :
    handle_event s ⟨EV_KEY, hw, 0⟩ =
      ({ s with grabbed := false, active_virt_group := none }, [SwitchEv.ungrab])
    ∧ handle_event s ⟨EV_KEY, hw, 1⟩ = (s, []) := by
  have hsa : set_active s (-1) =
      ({ s with grabbed := false, active_virt_group := none }, [SwitchEv.ungrab]) := by
    unfold set_active
    rw [if_pos (by norm_num)]
  constructor
  · unfold handle_event
    simp [hhw, hns, Ne.symm htog, hgrp, hsa, EV_KEY, EV_REL]
  · unfold handle_event
    simp [hhw, hns, Ne.symm htog, hgrp, EV_KEY, EV_REL]

/-- Witness for hw_hotkey_release on the concrete routed state. -/
theorem hw_hotkey_release_witness :
    handle_event hwReleaseSwitch ⟨EV_KEY, 50, 0⟩ =
      ({ hwReleaseSwitch with grabbed := false, active_virt_group := none },
       [SwitchEv.ungrab])
    ∧ handle_event hwReleaseSwitch ⟨EV_KEY, 50, 1⟩ = (hwReleaseSwitch, []) :=
  hw_hotkey_release hwReleaseSwitch 50 5 rfl rfl (by decide) (by decide) rfl

/-- C7 counterexample: a down-edge (value 1) of the configured hardware
release hotkey leaves the router state unchanged and still routed, refuting
the claim that the down-edge moves the router to Idle. -/
theorem hw_hotkey_downedge_cex :
    handle_event hwReleaseSwitch ⟨EV_KEY, 50, 1⟩ = (hwReleaseSwitch, [])
    ∧ hwReleaseSwitch.active_virt_group ≠ none := by
  decide

/-- C2 (amended): switching by the hotkey of the first target broadcasts
the notify key N1 of the newly active target to every sink: each of the two
sinks receives exactly one press-and-release of N1 (the configured N2 of the second target is not sent), and the first target becomes active. -/
theorem notify_key_broadcast (H1 H2 N1 N2 : Nat) (hH : H1 ≠ H2) (hN1 : N1 ≠ 0) :
    handle_event (two_target_switch H1 H2 N1 N2) ⟨EV_KEY, H1, 1⟩ =
      ({ two_target_switch H1 H2 N1 N2 with active_virt_group := some H1 },
       [SwitchEv.sink H1 (SinkEv.kbdWrite EV_KEY N1 1), SwitchEv.sink H1 SinkEv.kbdSyn,
        SwitchEv.sink H1 (SinkEv.kbdWrite EV_KEY N1 0), SwitchEv.sink H1 SinkEv.kbdSyn,
        SwitchEv.sink H2 (SinkEv.kbdWrite EV_KEY N1 1), SwitchEv.sink H2 SinkEv.kbdSyn,
        SwitchEv.sink H2 (SinkEv.kbdWrite EV_KEY N1 0), SwitchEv.sink H2 SinkEv.kbdSyn]) := by
  have hpos : ¬((H1 : Int) < 0) := by omega
  simp [handle_event, handle_switch, set_active, press_notify_all, press_and_release_key,
        alookup, two_target_switch, mkSwitch, mkVirtGroup, is_noswitch, hN1, hpos,
        Int.toNat_natCast, EV_KEY, EV_REL]

/-- Witness for notify_key_broadcast with hotkeys 2, 3 and notify keys
100, 101. -/
theorem notify_key_broadcast_witness :
    handle_event (two_target_switch 2 3 100 101) ⟨EV_KEY, 2, 1⟩ =
      ({ two_target_switch 2 3 100 101 with active_virt_group := some 2 },
       [SwitchEv.sink 2 (SinkEv.kbdWrite EV_KEY 100 1), SwitchEv.sink 2 SinkEv.kbdSyn,
        SwitchEv.sink 2 (SinkEv.kbdWrite EV_KEY 100 0), SwitchEv.sink 2 SinkEv.kbdSyn,
        SwitchEv.sink 3 (SinkEv.kbdWrite EV_KEY 100 1), SwitchEv.sink 3 SinkEv.kbdSyn,
        SwitchEv.sink 3 (SinkEv.kbdWrite EV_KEY 100 0), SwitchEv.sink 3 SinkEv.kbdSyn]) :=
  notify_key_broadcast 2 3 100 101 (by decide) (by decide)

/-- C2 counterexample: with win = (hotkey 2, notify 100) and lin =
(hotkey 3, notify 101), lin active, pressing hotkey 2 activates win but
the lin sink receives a press of 100 (the win notify key) and never 101
(its own), refuting the claim that each sink receives the notify key of
its own target. -/
theorem notify_key_own_key_cex :
    (handle_event (two_target_switch 2 3 100 101) ⟨EV_KEY, 2, 1⟩).1.active_virt_group = some 2
    ∧ SwitchEv.sink 3 (SinkEv.kbdWrite EV_KEY 101 1) ∉
        (handle_event (two_target_switch 2 3 100 101) ⟨EV_KEY, 2, 1⟩).2
    ∧ SwitchEv.sink 3 (SinkEv.kbdWrite EV_KEY 100 1) ∈
        (handle_event (two_target_switch 2 3 100 101) ⟨EV_KEY, 2, 1⟩).2 := by
  decide

end RouterTheorems

end VKM

namespace VKM

section HandoffTheorems

/-- Helper: the accumulator is contained in the unreleased-keys fold. -/
theorem subset_foldl_unrel (active : Option Nat) (gs : List (Nat × VirtGroup))
    (acc : Finset Nat) :
    acc ⊆ gs.foldl
      (fun acc p => if some p.1 = active then acc else acc ∪ p.2.active_keys) acc := by
  induction gs generalizing acc with
  | nil => simp
  | cons p rest ih =>
    simp only [List.foldl_cons]
    refine subset_trans ?_ (ih _)
    split_ifs
    · exact subset_rfl
    · intro x hx
      exact Finset.mem_union_left _ hx

/-- Helper: the active_keys of any non-active group found in the dict are
contained in the unreleased-keys fold. -/
theorem active_keys_subset_unrel (active : Option Nat) (gs : List (Nat × VirtGroup))
    (t : Nat) (vg : VirtGroup) (hlk : alookup t gs = some vg) (ht : some t ≠ active)
    (acc : Finset Nat) :
    vg.active_keys ⊆ gs.foldl
      (fun acc p => if some p.1 = active then acc else acc ∪ p.2.active_keys) acc := by
  induction gs generalizing acc with
  | nil => simp [alookup] at hlk
  | cons p rest ih =>
    obtain ⟨h, g⟩ := p
    simp only [alookup] at hlk
    simp only [List.foldl_cons]
    by_cases hth : t = h
    · rw [if_pos hth] at hlk
      injection hlk with hlk
      subst hlk
      subst hth
      rw [if_neg ht]
      refine subset_trans ?_ (subset_foldl_unrel active rest _)
      intro x hx
      exact Finset.mem_union_right _ hx
    · rw [if_neg hth] at hlk
      exact ih hlk _

/-- Helper: the per-group routing loop delivers the key write to any group
whose routing condition holds (the active group with the code not
unreleased elsewhere, or any group holding the code on an up event). -/
theorem route_key_delivers (active : Option Nat) (unrel : Finset Nat)
    (code : Nat) (value : Int) (gs : List (Nat × VirtGroup))
    (t : Nat) (vg : VirtGroup) (hlk : alookup t gs = some vg)
    (hcond : (some t = active ∧ code ∉ unrel) ∨ (code ∈ vg.active_keys ∧ value = 0)) :
    SwitchEv.sink t (key_write_ev code value) ∈
      (route_key_to_groups active unrel code value gs).2 := by
  induction gs with
  | nil => simp [alookup] at hlk
  | cons p rest ih =>
    obtain ⟨h, g⟩ := p
    simp only [alookup] at hlk
    simp only [route_key_to_groups]
    by_cases hth : t = h
    · rw [if_pos hth] at hlk
      injection hlk with hlk
      subst hlk
      subst hth
      rw [if_pos hcond]
      apply List.mem_append_left
      unfold key_write_ev
      by_cases hbtn : is_mouse_btn code
      · simp [hbtn, write_mouse_button]
      · simp [hbtn, write_key]
    · rw [if_neg hth] at hlk
      exact List.mem_append_right _ (ih hlk)

/-- Helper: on an up event for a code a group holds, the routing loop
replaces that group by the same group with the code erased from its
active_keys. -/
theorem route_key_up_erases (active : Option Nat) (unrel : Finset Nat)
    (code : Nat) (gs : List (Nat × VirtGroup)) (t : Nat) (vg : VirtGroup)
    (hlk : alookup t gs = some vg) (hmem : code ∈ vg.active_keys) :
    alookup t (route_key_to_groups active unrel code 0 gs).1 =
      some { vg with active_keys := vg.active_keys.erase code } := by
  induction gs with
  | nil => simp [alookup] at hlk
  | cons p rest ih =>
    obtain ⟨h, g⟩ := p
    simp only [alookup] at hlk
    simp only [route_key_to_groups]
    by_cases hth : t = h
    · rw [if_pos hth] at hlk
      injection hlk with hlk
      subst hlk
      subst hth
      rw [if_pos (Or.inr ⟨hmem, by trivial⟩)]
      simp only [alookup, if_pos rfl]
      by_cases hbtn : is_mouse_btn code
      · simp [hbtn, write_mouse_button]
      · simp [hbtn, write_key]
    · rw [if_neg hth] at hlk
      simp only [alookup]
      rw [if_neg hth]
      exact ih hlk

/-- Helper: a non-up event for a code that is unreleased on some non-active
group is routed to no group at all: the condition fails for every group. -/
theorem route_key_unreleased_silent (active : Option Nat) (unrel : Finset Nat)
    (code : Nat) (value : Int) (gs : List (Nat × VirtGroup))
    (hun : code ∈ unrel) (hv : value ≠ 0) :
    route_key_to_groups active unrel code value gs = (gs, []) := by
  induction gs with
  | nil => rfl
  | cons p rest ih =>
    obtain ⟨h, g⟩ := p
    simp only [route_key_to_groups, ih]
    rw [if_neg]
    · simp
    · rintro (⟨-, hnot⟩ | ⟨-, h0⟩)
      · exact hnot hun
      · exact hv h0

/-- C1: while target t (not the active target a) still holds key K, the
routed up event for K is delivered to t and K is erased from its held set,
and the routed down event for K is delivered to no sink at all, in
particular the active sink never receives a key-down for K. -/
theorem handoff_on_switch (s : Switch) (a t K : Nat) (vg : VirtGroup)
    (ha : s.active_virt_group = some a) (ht : t ≠ a)
    (hlk : alookup t s.virt_group_by_hotkey = some vg)
    (hK : K ∈ vg.active_keys) :
    SwitchEv.sink t (key_write_ev K 0) ∈ (route_event s ⟨EV_KEY, K, 0⟩).2
    ∧ alookup t (route_event s ⟨EV_KEY, K, 0⟩).1.virt_group_by_hotkey =
        some { vg with active_keys := vg.active_keys.erase K }
    ∧ ∀ ev : SinkEv, SwitchEv.sink a ev ∉ (route_event s ⟨EV_KEY, K, 1⟩).2 := by
  have hKun : K ∈ unreleased_keys s := by
    unfold unreleased_keys
    refine active_keys_subset_unrel s.active_virt_group _ t vg hlk ?_ ∅ hK
    rw [ha]
    simp [ht]
  refine ⟨?_, ?_, ?_⟩
  · unfold route_event
    rw [if_neg (by simp [ha]), if_pos rfl]
    exact route_key_delivers _ _ _ _ _ t vg hlk (Or.inr ⟨hK, rfl⟩)
  · unfold route_event
    rw [if_neg (by simp [ha]), if_pos rfl]
    exact route_key_up_erases _ _ _ _ t vg hlk hK
  · intro ev
    unfold route_event
    rw [if_neg (by simp [ha]), if_pos rfl,
        route_key_unreleased_silent _ _ _ _ _ hKun (by norm_num)]
    simp

/-- Witness for handoff_on_switch: target 2 holds key 30 while target 3 is
active; the up for 30 reaches target 2 and erases it, the down for 30
reaches no sink of target 3. -/
theorem handoff_on_switch_witness :
    SwitchEv.sink 2 (key_write_ev 30 0) ∈
      (route_event handoffSwitch ⟨EV_KEY, 30, 0⟩).2
    ∧ alookup 2 (route_event handoffSwitch ⟨EV_KEY, 30, 0⟩).1.virt_group_by_hotkey =
        some { gHolds30 with active_keys := gHolds30.active_keys.erase 30 }
    ∧ SwitchEv.sink 3 SinkEv.kbdSyn ∉ (route_event handoffSwitch ⟨EV_KEY, 30, 1⟩).2 :=
  ⟨(handoff_on_switch handoffSwitch 3 2 30 gHolds30 rfl (by decide) rfl (by decide)).1,
   (handoff_on_switch handoffSwitch 3 2 30 gHolds30 rfl (by decide) rfl (by decide)).2.1,
   (handoff_on_switch handoffSwitch 3 2 30 gHolds30 rfl (by decide) rfl
     (by decide)).2.2 SinkEv.kbdSyn⟩

/-- C4: while pass-through is active, a down-edge of any code other than
the toggle and the modifier (in particular a registered hotkey or a
callback-bound code) is neither treated as a switch nor dispatched to
callbacks but handed to ordinary routing unchanged; when the active group
exists and the code is not unreleased elsewhere, the active sink receives
the key-down; and the dedicated toggle key is always intercepted, flipping
the mode exactly on the down-edge. -/
theorem passthrough_suppresses (s : Switch) (code tog : Nat)
    (hns : is_noswitch s = true)
    (htog : s.noswitch_toggle = some tog)
    (hct : code ≠ tog)
    (hcm : some code ≠ s.noswitch_modifier)
    (hbound : (alookup code s.virt_group_by_hotkey).isSome ∨
      (alookup code s.callbacks_by_key).isSome) :
    handle_event s ⟨EV_KEY, code, 1⟩ = route_event s ⟨EV_KEY, code, 1⟩
    ∧ (∀ v : Int, handle_event s ⟨EV_KEY, tog, v⟩ =
        if v = 1 then ({ s with noswitch := !s.noswitch }, [SwitchEv.setLed (!s.noswitch)])
        else (s, []))
    ∧ (∀ (av : Nat) (avg : VirtGroup), s.active_virt_group = some av →
        alookup av s.virt_group_by_hotkey = some avg →
        code ∉ unreleased_keys s →
        SwitchEv.sink av (key_write_ev code 1) ∈ (handle_event s ⟨EV_KEY, code, 1⟩).2) := by
  have h1 : handle_event s ⟨EV_KEY, code, 1⟩ = route_event s ⟨EV_KEY, code, 1⟩ := by
    unfold handle_event
    rw [if_neg (by simp), if_neg (by simp [htog, hct]), if_pos ⟨rfl, hns⟩]
    cases hcb : alookup code s.callbacks_by_key with
    | none => simp [handle_fallthrough, hcb]
    | some handlers => simp [handle_fallthrough, hcb, hcm, hns]
  refine ⟨h1, ?_, ?_⟩
  · intro v
    unfold handle_event
    rw [if_neg (by simp), if_pos ⟨rfl, by rw [htog]⟩]
  · intro av avg hav havlk hnotun
    rw [h1]
    unfold route_event
    rw [if_neg (by simp [hav]), if_pos rfl]
    exact route_key_delivers _ _ _ _ _ av avg havlk (Or.inl ⟨hav.symm, hnotun⟩)

/-- Witness for passthrough_suppresses: in noswitch mode with toggle 59,
modifier 56 and a callback bound to code 60, a down of 60 is routed to the
active sink of target 2 instead of running its callback, and a down of the
toggle 59 flips the mode. -/
theorem passthrough_suppresses_witness :
    handle_event passThroughSwitch ⟨EV_KEY, 60, 1⟩ =
      route_event passThroughSwitch ⟨EV_KEY, 60, 1⟩
    ∧ handle_event passThroughSwitch ⟨EV_KEY, 59, 1⟩ =
        (if (1 : Int) = 1 then
          ({ passThroughSwitch with noswitch := !passThroughSwitch.noswitch },
           [SwitchEv.setLed (!passThroughSwitch.noswitch)])
         else (passThroughSwitch, []))
    ∧ SwitchEv.sink 2 (key_write_ev 60 1) ∈
        (handle_event passThroughSwitch ⟨EV_KEY, 60, 1⟩).2 :=
  ⟨(passthrough_suppresses passThroughSwitch 60 59 rfl rfl (by decide) (by decide)
      (Or.inr (by decide))).1,
   (passthrough_suppresses passThroughSwitch 60 59 rfl rfl (by decide) (by decide)
      (Or.inr (by decide))).2.1 1,
   (passthrough_suppresses passThroughSwitch 60 59 rfl rfl (by decide) (by decide)
      (Or.inr (by decide))).2.2 2 (mkVirtGroup none) rfl rfl (by decide)⟩

end HandoffTheorems

end VKM
